import Mathlib

/-!
Shallow embedding of `src/src/sinks/datadog/metrics.rs` (the Datadog metrics
sink): the metric data model, the tag/namespace/timestamp encoders, the
weighted summary engine, the series translation `encode_events`, the
interval-tracker update of `build_request`, and a model of JSON
serialization of the assembled request.

Floating point values that take part in exact arithmetic are modelled as
rationals (`ℚ`); every concrete input exercised below is a small dyadic
rational, on which `f64` arithmetic is exact, so the model is faithful
there.  Weights (`sample_rates`) are `u64` in the source and are modelled
as `Nat`.
-/

namespace Datadog

/-- `StatisticKind` from `crate::event::metric`: the two sample-statistic
flavors distinguished by the translator. -/
inductive StatisticKind where
  | histogram
  | distribution
deriving DecidableEq, Repr

/-- `MetricKind` from `crate::event::metric`. -/
inductive MetricKind where
  | incremental
  | absolute
deriving DecidableEq, Repr

/-- `MetricValue` from `crate::event::metric`, restricted to the variants
`encode_events` matches on.  `set` keeps only the distinct elements, as in
the source only `values.len()` of the set is used. -/
inductive MetricValue where
  | counter (value : ℚ)
  | gauge (value : ℚ)
  | set (values : Finset String)
  | samples (values : List ℚ) (sample_rates : List Nat) (statistic : StatisticKind)
deriving DecidableEq

/-- `Metric`: the input entity.  `timestamp` is `Option<DateTime<Utc>>` in
the source; only its epoch seconds are consumed, so it is modelled as
`Option Int`.  `tags` is `Option<BTreeMap<String, String>>`; the map is
modelled as its entry list in an arbitrary iteration order. -/
structure Metric where
  name : String
  timestamp : Option Int
  tags : Option (List (String × String))
  kind : MetricKind
  value : MetricValue
deriving DecidableEq

/-- `DatadogMetricType` (serialized snake_case: gauge, count, rate). -/
inductive DatadogMetricType where
  | gauge
  | count
  | rate
deriving DecidableEq, Repr

/-- `DatadogMetric`: one outgoing wire series record.  A `DatadogPoint` is
the pair (epoch seconds, value). -/
structure DatadogMetric where
  metric : String
  type : DatadogMetricType
  interval : Option Int
  points : List (Int × ℚ)
  tags : Option (List String)
deriving DecidableEq

/-- `DatadogRequest`: the outer envelope. -/
structure DatadogRequest where
  series : List DatadogMetric
deriving DecidableEq

/-- Lexicographic comparison of code-point sequences: the order
`Vec<String>::sort()` uses (Rust compares strings byte-wise, and UTF-8
preserves code-point order). -/
def charListLe : List Char → List Char → Bool
  | [], _ => true
  | _ :: _, [] => false
  | a :: as, b :: bs =>
      if a.toNat < b.toNat then true
      else if b.toNat < a.toNat then false
      else charListLe as bs

/-- The ascending string order of `pairs.sort()` as a relation. -/
def tagLe (a b : String) : Prop :=
  charListLe a.data b.data = true

instance : DecidableRel tagLe := fun a b =>
  Bool.decEq (charListLe a.data b.data) true

/-- `encode_tags` (metrics.rs lines 180-187): format every entry as
`"k:v"`, then sort the strings ascending (`pairs.sort()`). -/
def encode_tags (tags : List (String × String)) : List String :=
  List.insertionSort tagLe (tags.map fun p => p.1 ++ ":" ++ p.2)

/-- `encode_timestamp` (lines 189-195): the metric's own epoch seconds if
present, else the current wall clock, passed in as `now`. -/
def encode_timestamp (now : Int) (timestamp : Option Int) : Int :=
  match timestamp with
  | some ts => ts
  | none => now

/-- `encode_namespace` (lines 197-203). -/
def encode_namespace (ns : String) (name : String) : String :=
  if ns ≠ "" then ns ++ "." ++ name else name

/-- Modelled from the spec: the quantile level selection of
`crate::statistic` (Quantile Set Selector, spec §4.2), whose source is not
under `src/`: `Histogram → {0.95}`, `Distribution → {0.50, 0.75, 0.90,
0.95, 0.99}`. -/
def select_levels (statistic : StatisticKind) : List ℚ :=
  match statistic with
  | .histogram => [95/100]
  | .distribution => [50/100, 75/100, 90/100, 95/100, 99/100]

/-- Modelled from the spec: the nearest-rank walk of the Weighted Summary
Engine (spec §4.1 step 3), whose source (`crate::statistic`) is not under
`src/`: walk the (value, weight) pairs, accumulating weight, and return
the value of the first pair whose cumulative weight reaches `rank`. -/
def nearestRank (rank : Nat) : Nat → List (ℚ × Nat) → ℚ
  | _, [] => 0
  | acc, (v, w) :: rest =>
      if rank ≤ acc + w then v else nearestRank rank (acc + w) rest

/-- Modelled from the spec: sorting of the weighted pairs ascending by
value (spec §4.1 step 1). -/
def sortPairs (pairs : List (ℚ × Nat)) : List (ℚ × Nat) :=
  List.insertionSort (fun a b => a.1 ≤ b.1) pairs

/-- Modelled from the spec: `rank = ceil(p * total)`, clamped to
`[1, total]` (spec §4.1 step 3). -/
def rankOf (p : ℚ) (total : Nat) : Nat :=
  (max 1 (min (total : ℤ) ⌈p * (total : ℚ)⌉)).toNat

/-- Modelled from the spec: the quantile of a weighted sample sequence at
level `p` by the weighted nearest-rank rule (spec §4.1 steps 1-3). -/
def quantileOf (values : List ℚ) (weights : List Nat) (p : ℚ) : ℚ :=
  nearestRank (rankOf p weights.sum) 0 (sortPairs (values.zip weights))

/-- Modelled from the spec: the minimum over `values` (spec §4.1 step 4),
weight-independent, taken from the unsorted input. -/
def listMin : List ℚ → ℚ
  | [] => 0
  | v :: rest => rest.foldl min v

/-- Modelled from the spec: the maximum over `values` (spec §4.1 step 4). -/
def listMax : List ℚ → ℚ
  | [] => 0
  | v :: rest => rest.foldl max v

/-- `Summary` from `crate::statistic` (fields as in the source's tests). -/
structure Summary where
  min : ℚ
  max : ℚ
  median : ℚ
  avg : ℚ
  sum : ℚ
  count : ℚ
  quantiles : List (ℚ × ℚ)
deriving DecidableEq

/-- Modelled from the spec: `Summary::new` of `crate::statistic` (Weighted
Summary Engine, spec §4.1), whose source is not under `src/`.  Fails
(returns `none`) on mismatched lengths, empty input, or zero total weight;
otherwise computes min, max, sum = Σ value·weight, count = Σ weight,
avg = sum/count, median = quantile(0.5), and the quantiles selected for
`statistic`. -/
def Summary.new (values : List ℚ) (sample_rates : List Nat)
    (statistic : StatisticKind) : Option Summary :=
  if values.length ≠ sample_rates.length then none
  else if values.length = 0 then none
  else if sample_rates.sum = 0 then none
  else
    let total : Nat := sample_rates.sum
    let s : ℚ := ((values.zip sample_rates).map fun p => p.1 * (p.2 : ℚ)).sum
    some
      { min := listMin values
        max := listMax values
        median := quantileOf values sample_rates (1/2)
        avg := s / (total : ℚ)
        sum := s
        count := (total : ℚ)
        quantiles := (select_levels statistic).map fun p =>
          (p, quantileOf values sample_rates p) }

/-- The per-metric translation inside `encode_events` (lines 208-341): the
body of the `filter_map` closure.  `now` stands for `Utc::now()` consumed
by `encode_timestamp` when the metric has no timestamp. -/
def translateMetric (interval : Int) (ns : String) (now : Int)
    (event : Metric) : Option (List DatadogMetric) :=
  let fullname := encode_namespace ns event.name
  let ts := encode_timestamp now event.timestamp
  let tags := event.tags.map encode_tags
  match event.kind with
  | .incremental =>
    match event.value with
    | .counter value =>
        some [{ metric := fullname, type := .count, interval := some interval,
                points := [(ts, value)], tags := tags }]
    | .samples values sample_rates statistic =>
        (Summary.new values sample_rates statistic).map fun s =>
          let mk := fun m t v =>
            ({ metric := m, type := t, interval := some interval,
               points := [(ts, v)], tags := tags } : DatadogMetric)
          match statistic with
          | .histogram =>
              [mk (fullname ++ ".min") .gauge s.min,
               mk (fullname ++ ".avg") .gauge s.avg,
               mk (fullname ++ ".count") .rate s.count,
               mk (fullname ++ ".median") .gauge s.median,
               mk (fullname ++ ".max") .gauge s.max] ++
              s.quantiles.map fun q =>
                mk (fullname ++ "." ++ toString ⌊q.1 * 100⌋ ++ "percentile")
                  .gauge q.2
          | .distribution =>
              [mk ("min:" ++ fullname) .gauge s.min,
               mk ("avg:" ++ fullname) .gauge s.avg,
               mk ("count:" ++ fullname) .count s.count,
               mk ("max:" ++ fullname) .gauge s.max,
               mk ("sum:" ++ fullname) .count s.sum] ++
              s.quantiles.map fun q =>
                mk ("p" ++ toString ⌊q.1 * 100⌋ ++ ":" ++ fullname) .gauge q.2
    | .set values =>
        some [{ metric := fullname, type := .gauge, interval := none,
                points := [(ts, (values.card : ℚ))], tags := tags }]
    | _ => none
  | .absolute =>
    match event.value with
    | .gauge value =>
        some [{ metric := fullname, type := .gauge, interval := none,
                points := [(ts, value)], tags := tags }]
    | _ => none

/-- `encode_events` (lines 205-347): `filter_map` the per-metric
translation over the batch, flatten, wrap in the envelope. -/
def encode_events (events : List Metric) (interval : Int) (ns : String)
    (now : Int) : DatadogRequest :=
  { series := (events.filterMap (translateMetric interval ns now)).flatten }

/-!
Interval tracker (`DatadogSink.last_sent_timestamp`, an `AtomicI64`).  The
update in `build_request` (lines 138-140) is

    let interval = now - self.last_sent_timestamp.load(SeqCst);
    self.last_sent_timestamp.store(now, SeqCst);

i.e. two separate atomic operations: a load, then a store.  A flush thread
is modelled as a program of atomic steps against the shared cell; a
schedule interleaves two flush threads.
-/

/-- One flush thread: its wall-clock `now`, a program counter over its
atomic steps, and the previous timestamp it observed at its load. -/
structure FlushThread where
  now : Int
  pc : Nat
  obs : Option Int
deriving DecidableEq

/-- Shared cell plus two concurrently flushing threads. -/
structure TwoFlushState where
  last : Int
  t0 : FlushThread
  t1 : FlushThread
deriving DecidableEq

/-- One atomic step of the source's load-then-store sequence, executed by
one thread: pc 0 is `last_sent_timestamp.load(SeqCst)` (line 139), which
only reads; pc 1 is `last_sent_timestamp.store(now, SeqCst)` (line 140),
which only writes.  Returns the new cell value and thread state. -/
def loadStoreStep (last : Int) (t : FlushThread) : Int × FlushThread :=
  match t.pc with
  | 0 => (last, { t with pc := 1, obs := some last })
  | 1 => (t.now, { t with pc := 2 })
  | _ => (last, t)

/-- A single atomic exchange step (`swap`): read and replace the cell in
one indivisible operation — the update the specification requires. -/
def exchangeStep (last : Int) (t : FlushThread) : Int × FlushThread :=
  match t.pc with
  | 0 => (t.now, { t with pc := 1, obs := some last })
  | _ => (last, t)

/-- Run two flush threads under a schedule (`false` picks thread 0), each
executing the given per-thread step function. -/
def runSched (step : Int → FlushThread → Int × FlushThread) :
    TwoFlushState → List Bool → TwoFlushState
  | s, [] => s
  | s, b :: rest =>
      if b then
        let (l, t) := step s.last s.t1
        runSched step { s with last := l, t1 := t } rest
      else
        let (l, t) := step s.last s.t0
        runSched step { s with last := l, t0 := t } rest

/-!
JSON serialization model for `build_request`'s
`serde_json::to_vec(&input).unwrap()` (line 143).  Point values are `f64`
on the wire, so here the scalar type distinguishes finite from non-finite
values.  serde_json writes `null` for a non-finite float (it does not
error), and its serializer fails at run time exactly when a map key does
not serialize to a string; the serde data model therefore keeps object
keys as arbitrary values.
-/

/-- An `f64` as the serializer classifies it: finite (exact value kept as
a rational) or non-finite (NaN / ±infinity). -/
inductive F64 where
  | finite (q : ℚ)
  | nan
  | infinite (neg : Bool)
deriving DecidableEq

/-- A value of the serde data model about to be written as JSON.  Object
keys are themselves values; serde_json rejects non-string keys. -/
inductive JVal where
  | null
  | bool (b : Bool)
  | num (x : F64)
  | str (s : String)
  | arr (elems : List JVal)
  | obj (fields : List (JVal × JVal))

/-- Render a finite rational; the exact digits are irrelevant to every
property proved here, only totality matters. -/
def renderQ (q : ℚ) : String :=
  toString q.num ++ "/" ++ toString q.den

mutual

/-- serde_json serialization: total on every value except objects with a
non-string key, where it returns `none` (serde_json's "key must be a
string" error).  Non-finite numbers serialize as `null`. -/
def serializeJVal : JVal → Option String
  | .null => some "null"
  | .bool b => some (if b then "true" else "false")
  | .num (.finite q) => some (renderQ q)
  | .num .nan => some "null"
  | .num (.infinite _) => some "null"
  | .str s => some ("\"" ++ s ++ "\"")
  | .arr es => (serializeElems es).map fun body => "[" ++ body ++ "]"
  | .obj fs => (serializeFields fs).map fun body => "\x7b" ++ body ++ "\x7d"

/-- Serialize the elements of an array, failing if any element fails. -/
def serializeElems : List JVal → Option String
  | [] => some ""
  | e :: rest => do
      let s ← serializeJVal e
      let r ← serializeElems rest
      some (s ++ "," ++ r)

/-- Serialize the fields of an object; a key that is not a string is an
error. -/
def serializeFields : List (JVal × JVal) → Option String
  | [] => some ""
  | (k, v) :: rest =>
      match k with
      | .str ks => do
          let vs ← serializeJVal v
          let r ← serializeFields rest
          some ("\"" ++ ks ++ "\":" ++ vs ++ "," ++ r)
      | _ => none

end

/-- `DatadogMetric` as serialized on the wire: point values are raw `f64`,
so they may be NaN or infinite. -/
structure DatadogMetricW where
  metric : String
  type : DatadogMetricType
  interval : Option Int
  points : List (Int × F64)
  tags : Option (List String)
deriving DecidableEq

/-- `DatadogRequest` over wire `f64` values. -/
structure DatadogRequestW where
  series : List DatadogMetricW
deriving DecidableEq

/-- The derived `Serialize` of `DatadogMetricType` (snake_case rename). -/
def jsonOfType (t : DatadogMetricType) : JVal :=
  .str (match t with
    | .gauge => "gauge"
    | .count => "count"
    | .rate => "rate")

/-- The derived `Serialize` of `Option<i64>`. -/
def jsonOfOptInt : Option Int → JVal
  | none => .null
  | some i => .num (.finite (i : ℚ))

/-- The derived `Serialize` of `DatadogPoint(i64, f64)`: a two-element
array. -/
def jsonOfPoint (p : Int × F64) : JVal :=
  .arr [.num (.finite (p.1 : ℚ)), .num p.2]

/-- The derived `Serialize` of `Option<Vec<String>>`. -/
def jsonOfTags : Option (List String) → JVal
  | none => .null
  | some l => .arr (l.map JVal.str)

/-- The derived `Serialize` of `DatadogMetric`: a struct serializes as an
object whose keys are the field names. -/
def jsonOfMetricW (m : DatadogMetricW) : JVal :=
  .obj [(.str "metric", .str m.metric),
        (.str "type", jsonOfType m.type),
        (.str "interval", jsonOfOptInt m.interval),
        (.str "points", .arr (m.points.map jsonOfPoint)),
        (.str "tags", jsonOfTags m.tags)]

/-- The derived `Serialize` of `DatadogRequest`. -/
def jsonOfRequestW (r : DatadogRequestW) : JVal :=
  .obj [(.str "series", .arr (r.series.map jsonOfMetricW))]

/-!
Concrete metrics used by the source's own tests, reused as inputs below.
-/

/-- The `encode_histogram` test input (lines 614-624). -/
def histExample : Metric :=
  { name := "requests", timestamp := some 1542182950, tags := none,
    kind := .incremental,
    value := .samples [1, 2, 3] [3, 3, 2] .histogram }

/-- The `encode_distribution` test input (lines 637-647). -/
def distExample : Metric :=
  { name := "requests", timestamp := some 1542182950, tags := none,
    kind := .incremental,
    value := .samples [1, 2, 3] [3, 3, 2] .distribution }

/-- The `encode_set` test input (lines 508-516). -/
def setExample : Metric :=
  { name := "users", timestamp := some 1542182950, tags := none,
    kind := .incremental,
    value := .set {"alice", "bob"} }

/-- The `encode_counter` test's first input (lines 448-454), with an
explicit timestamp. -/
def counterExample : Metric :=
  { name := "total", timestamp := some 1542182950, tags := none,
    kind := .incremental, value := .counter (3/2) }

/-- The `encode_gauge` test's supported input (lines 489-495), here with a
present-but-empty tag map. -/
def emptyTagsGauge : Metric :=
  { name := "volume", timestamp := some 1542182950, tags := some [],
    kind := .absolute, value := .gauge (-(11/10)) }

/-- The dense-stats test values `0.0, 1.0, ..., 19.0` (line 529). -/
def denseValues : List ℚ :=
  (List.range 20).map fun n => (n : ℚ)

/-- The dense-stats test weights: twenty ones (line 530). -/
def denseWeights : List Nat :=
  List.replicate 20 1

/-- Total weight of a weighted-pair sequence (used to state the
nearest-rank characterization: cumulative weight of a prefix). -/
def wsum (l : List (ℚ × Nat)) : Nat :=
  (l.map Prod.snd).sum

/-!
Derived characterizations of the translation, proved from the embedding.
The arithmetic of `Rat` is sealed behind `@[irreducible]` upstream; kernel
evaluation of the concrete instances below needs it unfolded.
-/

attribute [local semireducible] Rat.mul Rat.add Rat.inv Rat.sub

/-- The kind/value combinations whose records carry `interval = Some`:
exactly Incremental Counter and Incremental Samples (every record of the
Samples expansion is built by the `metric` closure of lines 227-233, which
sets `interval: Some(interval)` regardless of the record's type). -/
def hasInterval (m : Metric) : Bool :=
  match m.kind, m.value with
  | .incremental, .counter _ => true
  | .incremental, .samples _ _ _ => true
  | _, _ => false

/-- The kind/value combinations the dispatch of `encode_events` drops as
unsupported (`_ => None` arms, lines 329 and 339). -/
def illegalCombo (m : Metric) : Bool :=
  match m.kind, m.value with
  | .incremental, .gauge _ => true
  | .absolute, .counter _ => true
  | .absolute, .samples _ _ _ => true
  | .absolute, .set _ => true
  | _, _ => false

/-- The records one metric contributes to the batch: the empty list when
the `filter_map` closure returns `None`. -/
def contribution (interval : Int) (ns : String) (now : Int)
    (m : Metric) : List DatadogMetric :=
  (translateMetric interval ns now m).getD []

/-- Every record a single metric translates to carries
`interval = Some interval` exactly when the metric is an Incremental
Counter or Incremental Samples, and carries the tags field
`event.tags.clone().map(encode_tags)` of the originating metric. -/
theorem mem_translate_fields (m : Metric) (interval : Int) (ns : String)
    (now : Int) (recs : List DatadogMetric) (r : DatadogMetric)
    (hm : translateMetric interval ns now m = some recs) (hr : r ∈ recs) :
    r.interval = (if hasInterval m then some interval else none) ∧
    r.tags = m.tags.map encode_tags := by
  obtain ⟨name, timestamp, tags, kind, value⟩ := m
  cases kind <;> cases value <;>
    simp only [translateMetric, Option.some.injEq, reduceCtorEq] at hm
  case incremental.counter v =>
    subst hm
    simp only [List.mem_singleton] at hr
    subst hr
    simp [hasInterval]
  case incremental.set vs =>
    subst hm
    simp only [List.mem_singleton] at hr
    subst hr
    simp [hasInterval]
  case incremental.samples vs ws st =>
    rw [Option.map_eq_some'] at hm
    obtain ⟨s, _, hbody⟩ := hm
    subst hbody
    cases st <;>
      simp only [List.mem_append, List.mem_cons, List.not_mem_nil, or_false,
        List.mem_map] at hr
    · obtain (h | h | h | h | h) | ⟨q, _, h⟩ := hr <;>
        subst h <;> simp [hasInterval]
    · obtain (h | h | h | h | h) | ⟨q, _, h⟩ := hr <;>
        subst h <;> simp [hasInterval]
  case absolute.gauge v =>
    subst hm
    simp only [List.mem_singleton] at hr
    subst hr
    simp [hasInterval]

/-- The mismatched-lengths samples of `test_unequal_stats` (lines
592-593), wrapped as a metric. -/
def badSamples : Metric :=
  { name := "bad", timestamp := some 1542182950, tags := none,
    kind := .incremental, value := .samples [1] [1, 2, 3] .histogram }

/-- The `encode_counter` test's tagged input (lines 455-461). -/
def taggedCounter : Metric :=
  { name := "check", timestamp := some 1542182950,
    tags := some [("normal_tag", "value"), ("true_tag", "true"),
      ("empty_tag", "")],
    kind := .incremental, value := .counter 1 }

/-- C1: the claim says `last_sent_timestamp` is updated by a single atomic
exchange per flush, never a separate load followed by a separate store,
so that no two concurrent flushes observe the same previous timestamp.
The code of `build_request` (lines 138-140) performs a separate
`load(SeqCst)` then `store(now, SeqCst)`.  Running two flushes (with
`now = 100` and `now = 200`) from `last_sent_timestamp = 50` under the
interleaving load₀, load₁, store₀, store₁, both flushes complete
(`pc = 2`) and both observe the same previous timestamp `50` — the exact
corruption the claim asserts is impossible. -/
theorem C1_separate_load_store_race :
    runSched loadStoreStep ⟨50, ⟨100, 0, none⟩, ⟨200, 0, none⟩⟩
        [false, true, false, true] =
      ⟨200, ⟨100, 2, some 50⟩, ⟨200, 2, some 50⟩⟩ := by
  decide

/-- C2 (counterexample): the claim says records of type Gauge always carry
`interval = None`, but the histogram expansion of `encode_events` emits
Gauge-typed records (e.g. `requests.min`) carrying
`interval = Some 60`. -/
theorem C2_gauge_record_with_interval :
    ∃ r ∈ (encode_events [histExample] 60 "" 0).series,
      r.type = DatadogMetricType.gauge ∧ r.interval = some 60 := by
  decide

/-- C2 (amended): every record emitted for a metric carries
`interval = Some interval` exactly when the metric is an Incremental
Counter or Incremental Samples — including the Gauge-typed records of the
Samples expansion — and `interval = None` otherwise (Set and Absolute
Gauge records). -/
theorem C2_interval_by_origin (m : Metric) (interval : Int) (ns : String)
    (now : Int) (recs : List DatadogMetric) (r : DatadogMetric)
    (hm : translateMetric interval ns now m = some recs) (hr : r ∈ recs) :
    r.interval = (if hasInterval m then some interval else none) :=
  (mem_translate_fields m interval ns now recs r hm hr).1

/-- C2 witness: the amended theorem applied to the Set example, whose
single record carries `interval = None`. -/
theorem C2_interval_by_origin_witness :
    (⟨"users", .gauge, none, [(1542182950, 2)], none⟩ : DatadogMetric).interval =
      (if hasInterval setExample then some (60 : Int) else none) :=
  C2_interval_by_origin setExample 60 "" 0
    [⟨"users", .gauge, none, [(1542182950, 2)], none⟩] _ (by decide) (by decide)

/-- C3 (counterexample): the claim says a metric whose tag mapping is
absent or empty always yields records with an absent tags field (`None`),
never an empty list; but a metric with a present-but-empty mapping yields
a record with `tags = Some []` — an empty list.  (The source computes
`event.tags.clone().map(encode_tags)`, line 211.) -/
theorem C3_empty_map_gives_empty_list :
    ∃ r ∈ (encode_events [emptyTagsGauge] 60 "" 0).series,
      r.tags = some [] := by
  decide

/-- C3 (amended): every record emitted for a metric has
`tags = m.tags.map encode_tags`: `None` exactly when the mapping is
absent, and for a present mapping `Some` of its encoding, which has
exactly one `"k:v"` string per entry (so it is non-empty exactly when the
mapping is non-empty, and empty — not absent — for a present empty
mapping). -/
theorem C3_tags_by_origin (m : Metric) (interval : Int) (ns : String)
    (now : Int) (recs : List DatadogMetric) (r : DatadogMetric)
    (hm : translateMetric interval ns now m = some recs) (hr : r ∈ recs) :
    r.tags = m.tags.map encode_tags ∧
      ∀ ts, m.tags = some ts → (encode_tags ts).length = ts.length := by
  refine ⟨(mem_translate_fields m interval ns now recs r hm hr).2, ?_⟩
  intro ts _
  calc (encode_tags ts).length
      = (ts.map fun p => p.1 ++ ":" ++ p.2).length :=
        (List.perm_insertionSort _ _).length_eq
    _ = ts.length := List.length_map _ _

/-- C3 witness: the amended theorem applied to the tagged counter of the
source's `encode_counter` test: its record carries the sorted three-entry
tag list. -/
theorem C3_tags_by_origin_witness :
    (⟨"ns.check", .count, some 60, [(1542182950, 1)],
        some ["empty_tag:", "normal_tag:value", "true_tag:true"]⟩ :
        DatadogMetric).tags = taggedCounter.tags.map encode_tags ∧
      (encode_tags [("normal_tag", "value"), ("true_tag", "true"),
        ("empty_tag", "")]).length = 3 := by
  have h := C3_tags_by_origin taggedCounter 60 "ns" 0
    [⟨"ns.check", .count, some 60, [(1542182950, 1)],
        some ["empty_tag:", "normal_tag:value", "true_tag:true"]⟩]
    ⟨"ns.check", .count, some 60, [(1542182950, 1)],
        some ["empty_tag:", "normal_tag:value", "true_tag:true"]⟩
    (by decide) (by decide)
  exact ⟨h.1, h.2 _ rfl⟩

/-- C4: the Incremental `Samples{[1,2,3],[3,3,2],Histogram}` metric with
`interval = 60` encodes to exactly 6 records named `.min`, `.avg`,
`.count`, `.median`, `.max`, `.95percentile` with point values
1, 15/8 (= 1.875), 8, 2, 3, 3, all Gauge except `.count` which is Rate,
all sharing `interval = Some 60` (matches the source's
`encode_histogram` test, lines 612-632). -/
theorem C4_histogram_encoding :
    (encode_events [histExample] 60 "" 0).series =
      [{ metric := "requests.min", type := .gauge, interval := some 60,
         points := [(1542182950, 1)], tags := none },
       { metric := "requests.avg", type := .gauge, interval := some 60,
         points := [(1542182950, 15/8)], tags := none },
       { metric := "requests.count", type := .rate, interval := some 60,
         points := [(1542182950, 8)], tags := none },
       { metric := "requests.median", type := .gauge, interval := some 60,
         points := [(1542182950, 2)], tags := none },
       { metric := "requests.max", type := .gauge, interval := some 60,
         points := [(1542182950, 3)], tags := none },
       { metric := "requests.95percentile", type := .gauge,
         interval := some 60, points := [(1542182950, 3)], tags := none }] := by
  decide

/-- C5: the same samples with `Distribution` encode to exactly 10 records
named `min:`, `avg:`, `count:`, `max:`, `sum:`, `p50:`, `p75:`, `p90:`,
`p95:`, `p99:` (no median record), with `count:` and `sum:` typed Count,
the rest Gauge, and `sum:requests` carrying 15 (matches the source's
`encode_distribution` test, lines 634-655). -/
theorem C5_distribution_encoding :
    (encode_events [distExample] 60 "" 0).series =
      [{ metric := "min:requests", type := .gauge, interval := some 60,
         points := [(1542182950, 1)], tags := none },
       { metric := "avg:requests", type := .gauge, interval := some 60,
         points := [(1542182950, 15/8)], tags := none },
       { metric := "count:requests", type := .count, interval := some 60,
         points := [(1542182950, 8)], tags := none },
       { metric := "max:requests", type := .gauge, interval := some 60,
         points := [(1542182950, 3)], tags := none },
       { metric := "sum:requests", type := .count, interval := some 60,
         points := [(1542182950, 15)], tags := none },
       { metric := "p50:requests", type := .gauge, interval := some 60,
         points := [(1542182950, 2)], tags := none },
       { metric := "p75:requests", type := .gauge, interval := some 60,
         points := [(1542182950, 2)], tags := none },
       { metric := "p90:requests", type := .gauge, interval := some 60,
         points := [(1542182950, 3)], tags := none },
       { metric := "p95:requests", type := .gauge, interval := some 60,
         points := [(1542182950, 3)], tags := none },
       { metric := "p99:requests", type := .gauge, interval := some 60,
         points := [(1542182950, 3)], tags := none }] := by
  decide

/-- C7: series translation is total (`contribution` is a total function on
every metric, so no combination is an error): the unsupported
combinations Incremental Gauge, Absolute Counter, Absolute Samples,
Absolute Set contribute exactly zero records, and a supported combination
contributes zero records if and only if it is a Samples metric whose
weighted summary fails — so every other supported combination contributes
at least one record. -/
theorem C7_dispatch_totality (m : Metric) (interval now : Int) (ns : String) :
    (illegalCombo m = true → contribution interval ns now m = []) ∧
    (illegalCombo m = false →
      (contribution interval ns now m = [] ↔
        ∃ vs ws st, m.value = .samples vs ws st ∧
          Summary.new vs ws st = none)) := by
  obtain ⟨name, timestamp, tags, kind, value⟩ := m
  cases kind <;> cases value <;>
    simp only [illegalCombo, contribution, translateMetric,
      Bool.true_eq_false, false_implies, true_implies, true_and, and_true,
      Option.getD_none, Option.getD_some, MetricValue.samples.injEq,
      reduceCtorEq, false_and, exists_false, iff_false, and_self,
      exists_and_left, exists_eq_left]
  case mk.incremental.samples vs ws st =>
    have hiff : (∃ vs1 ws1 st1, (vs = vs1 ∧ ws = ws1 ∧ st = st1) ∧
        Summary.new vs1 ws1 st1 = none) ↔ Summary.new vs ws st = none := by
      constructor
      · rintro ⟨a, b, c, ⟨rfl, rfl, rfl⟩, h⟩
        exact h
      · intro h
        exact ⟨vs, ws, st, ⟨rfl, rfl, rfl⟩, h⟩
    rw [hiff]
    cases hs : Summary.new vs ws st with
    | none => simp
    | some s =>
      simp only [Option.map_some', Option.getD_some, reduceCtorEq,
        iff_false]
      cases st <;> simp

/-- C7 witness: the unsupported Incremental Gauge contributes no records,
and the supported histogram example's contribution is non-empty because
its summary succeeds. -/
theorem C7_dispatch_totality_witness :
    contribution 60 "" 0
        ⟨"unsupported", some 1542182950, none, .incremental,
          .gauge (1/10)⟩ = [] ∧
      (contribution 60 "" 0 histExample = [] ↔
        ∃ vs ws st, histExample.value = .samples vs ws st ∧
          Summary.new vs ws st = none) :=
  ⟨(C7_dispatch_totality
      ⟨"unsupported", some 1542182950, none, .incremental, .gauge (1/10)⟩
      60 0 "").1 (by decide),
   (C7_dispatch_totality histExample 60 0 "").2 (by decide)⟩

/-- A Samples metric whose summary fails translates to `None` and is
dropped by the `filter_map`, whatever its kind. -/
theorem translate_samples_fail (m : Metric) (vs : List ℚ) (ws : List Nat)
    (st : StatisticKind) (interval now : Int) (ns : String)
    (hv : m.value = .samples vs ws st) (hs : Summary.new vs ws st = none) :
    translateMetric interval ns now m = none := by
  obtain ⟨name, timestamp, tags, kind, value⟩ := m
  simp only at hv
  subst hv
  cases kind <;> simp [translateMetric, hs]

/-- C8: the weighted summary fails (no summary) exactly when the lengths
differ, or values is empty, or the total weight is zero; and in every
failure the affected Samples metric contributes zero records while the
records of every other metric in the batch are unchanged. -/
theorem C8_summary_failure_is_local :
    (∀ (vs : List ℚ) (ws : List Nat) (st : StatisticKind),
        Summary.new vs ws st = none ↔
          (vs.length ≠ ws.length ∨ vs = [] ∨ ws.sum = 0)) ∧
    (∀ (pre post : List Metric) (m : Metric) (vs : List ℚ) (ws : List Nat)
        (st : StatisticKind) (interval now : Int) (ns : String),
        m.value = .samples vs ws st → Summary.new vs ws st = none →
        (encode_events (pre ++ m :: post) interval ns now).series =
          (encode_events (pre ++ post) interval ns now).series) := by
  constructor
  · intro vs ws st
    simp only [Summary.new]
    split_ifs with h1 h2 h3
    · simp [h1]
    · simp [List.length_eq_zero.mp h2]
    · simp [h3]
    · have hv : vs ≠ [] := fun h => h2 (by simp [h])
      simp [h1, h3, hv]
  · intro pre post m vs ws st interval now ns hv hs
    simp [encode_events, List.filterMap_append, List.filterMap_cons,
      translate_samples_fail m vs ws st interval now ns hv hs]

/-- C8 witness: the mismatched-lengths input of the source's
`test_unequal_stats` fails, and dropping it from a three-metric batch
leaves the other two metrics' records unchanged. -/
theorem C8_summary_failure_is_local_witness :
    (Summary.new [1] [1, 2, 3] .histogram = none ↔
      (([1] : List ℚ).length ≠ ([1, 2, 3] : List Nat).length ∨
        ([1] : List ℚ) = [] ∨ ([1, 2, 3] : List Nat).sum = 0)) ∧
    (encode_events ([counterExample] ++ badSamples :: [setExample])
        60 "" 0).series =
      (encode_events ([counterExample] ++ [setExample]) 60 "" 0).series :=
  ⟨C8_summary_failure_is_local.1 [1] [1, 2, 3] .histogram,
   C8_summary_failure_is_local.2 [counterExample] [setExample] badSamples
     [1] [1, 2, 3] .histogram 60 0 "" rfl (by decide)⟩

/-- Cons-level characterization of the lexicographic comparison. -/
theorem charListLe_cons_iff (a b : Char) (as bs : List Char) :
    charListLe (a :: as) (b :: bs) = true ↔
      (a.toNat < b.toNat ∨
        (a.toNat = b.toNat ∧ charListLe as bs = true)) := by
  simp only [charListLe]
  split_ifs with h1 h2
  · simp [h1]
  · constructor
    · intro h
      cases h
    · rintro (h | ⟨h, _⟩) <;> omega
  · have he : a.toNat = b.toNat := by omega
    simp [h1, he]

/-- The order `pairs.sort()` uses is total. -/
theorem charListLe_total : ∀ as bs : List Char,
    charListLe as bs = true ∨ charListLe bs as = true
  | [], [] => Or.inl rfl
  | [], _ :: _ => Or.inl rfl
  | _ :: _, [] => Or.inr rfl
  | a :: as, b :: bs => by
      rw [charListLe_cons_iff, charListLe_cons_iff]
      rcases Nat.lt_trichotomy a.toNat b.toNat with h | h | h
      · exact Or.inl (Or.inl h)
      · rcases charListLe_total as bs with hr | hr
        · exact Or.inl (Or.inr ⟨h, hr⟩)
        · exact Or.inr (Or.inr ⟨h.symm, hr⟩)
      · exact Or.inr (Or.inl h)

/-- The order `pairs.sort()` uses is transitive. -/
theorem charListLe_trans : ∀ as bs cs : List Char,
    charListLe as bs = true → charListLe bs cs = true →
    charListLe as cs = true
  | [], _, _, _, _ => rfl
  | _ :: _, [], _, h, _ => by simp [charListLe] at h
  | _ :: _, _ :: _, [], _, h => by simp [charListLe] at h
  | a :: as, b :: bs, c :: cs, h1, h2 => by
      rw [charListLe_cons_iff] at h1 h2 ⊢
      rcases h1 with h1 | ⟨e1, r1⟩ <;> rcases h2 with h2 | ⟨e2, r2⟩
      · exact Or.inl (by omega)
      · exact Or.inl (by omega)
      · exact Or.inl (by omega)
      · exact Or.inr ⟨by omega, charListLe_trans as bs cs r1 r2⟩

/-- The order `pairs.sort()` uses is antisymmetric. -/
theorem charListLe_antisymm : ∀ as bs : List Char,
    charListLe as bs = true → charListLe bs as = true → as = bs
  | [], [], _, _ => rfl
  | [], _ :: _, _, h => by simp [charListLe] at h
  | _ :: _, [], h, _ => by simp [charListLe] at h
  | a :: as, b :: bs, h1, h2 => by
      rw [charListLe_cons_iff] at h1 h2
      have he : a.toNat = b.toNat := by
        rcases h1 with h1 | ⟨e1, _⟩ <;> rcases h2 with h2 | ⟨e2, _⟩ <;> omega
      have r1 : charListLe as bs = true := by
        rcases h1 with h1 | ⟨_, r⟩
        · omega
        · exact r
      have r2 : charListLe bs as = true := by
        rcases h2 with h2 | ⟨_, r⟩
        · omega
        · exact r
      rw [Char.ext (UInt32.ext he), charListLe_antisymm as bs r1 r2]

instance : IsTotal String tagLe :=
  ⟨fun a b => charListLe_total a.data b.data⟩

instance : IsTrans String tagLe :=
  ⟨fun a b c => charListLe_trans a.data b.data c.data⟩

instance : IsAntisymm String tagLe :=
  ⟨fun a b h1 h2 => String.ext (charListLe_antisymm a.data b.data h1 h2)⟩

/-- C9: for every tag mapping, `encode_tags` returns a list sorted
ascending by the full "k:v" string, containing exactly one such string
per entry (it is a permutation of the formatted entries), and the result
does not depend on the iteration order of the entries. -/
theorem C9_encode_tags_sorted_complete (tags : List (String × String)) :
    List.Sorted tagLe (encode_tags tags) ∧
    List.Perm (encode_tags tags) (tags.map fun p => p.1 ++ ":" ++ p.2) ∧
    ∀ tags2 : List (String × String), List.Perm tags tags2 →
      encode_tags tags = encode_tags tags2 := by
  refine ⟨List.sorted_insertionSort tagLe _,
    List.perm_insertionSort tagLe _, ?_⟩
  intro tags2 hperm
  exact List.eq_of_perm_of_sorted
    ((List.perm_insertionSort tagLe _).trans
      ((hperm.map _).trans (List.perm_insertionSort tagLe _).symm))
    (List.sorted_insertionSort tagLe _) (List.sorted_insertionSort tagLe _)

/-- Unfolding of `wsum` on a cons cell. -/
theorem wsum_cons (p : ℚ × Nat) (l : List (ℚ × Nat)) :
    wsum (p :: l) = p.2 + wsum l := by
  simp [wsum]

/-- The rank is at least 1, the lower clamp. -/
theorem rankOf_pos (p : ℚ) (total : Nat) : 1 ≤ rankOf p total := by
  unfold rankOf
  omega

/-- The rank is at most the total weight, the upper clamp. -/
theorem rankOf_le (p : ℚ) (total : Nat) (h : 1 ≤ total) :
    rankOf p total ≤ total := by
  unfold rankOf
  omega

/-- Sorting the pairs preserves the total weight. -/
theorem wsum_sortPairs (l : List (ℚ × Nat)) : wsum (sortPairs l) = wsum l :=
  List.Perm.sum_eq ((List.perm_insertionSort _ l).map Prod.snd)

/-- Zipping equal-length values and weights carries the weight total. -/
theorem wsum_zip (values : List ℚ) (weights : List Nat)
    (h : values.length = weights.length) :
    wsum (values.zip weights) = weights.sum := by
  unfold wsum
  rw [List.map_snd_zip values weights h.ge]

/-- The nearest-rank walk characterized: starting from accumulated weight
`acc` strictly below the target rank, with the rank reachable within the
list, the walk returns the value of the first pair whose cumulative
weight reaches the rank. -/
theorem nearestRank_spec (rank : Nat) :
    ∀ (l : List (ℚ × Nat)) (acc : Nat), acc < rank → rank ≤ acc + wsum l →
    ∃ i : Fin l.length,
      nearestRank rank acc l = (l.get i).1 ∧
      rank ≤ acc + wsum (l.take (i.1 + 1)) ∧
      ∀ j < i.1, acc + wsum (l.take (j + 1)) < rank
  | [], acc, hlt, hle => absurd (hle.trans_lt (by simpa [wsum] using hlt))
      (lt_irrefl rank).elim
  | (v, w) :: rest, acc, hlt, hle => by
      by_cases h : rank ≤ acc + w
      · refine ⟨⟨0, by simp⟩, by simp [nearestRank, h], ?_, ?_⟩
        · simpa [wsum_cons, wsum] using h
        · intro j hj
          simp only [Fin.val_mk] at hj
          omega
      · have hlt2 : acc + w < rank := by omega
        have hle2 : rank ≤ (acc + w) + wsum rest := by
          rw [wsum_cons] at hle
          omega
        obtain ⟨i, hval, hcum, hmin⟩ := nearestRank_spec rank rest
          (acc + w) hlt2 hle2
        refine ⟨⟨i.1 + 1, Nat.succ_lt_succ i.2⟩, ?_, ?_, ?_⟩
        · simpa [nearestRank, h] using hval
        · simp only [Fin.val_mk, List.take_succ_cons, wsum_cons]
          omega
        · intro j hj
          simp only [Fin.val_mk] at hj
          cases j with
          | zero => simpa [wsum_cons, wsum] using hlt2
          | succ j2 =>
            have hj2 := hmin j2 (by omega)
            rw [List.take_succ_cons, wsum_cons]
            omega

set_option maxRecDepth 40000 in
/-- C6: for every weighted sample set with equal lengths, nonempty
values, and positive total weight, and every level `p`, the quantile is
the value of the first pair, in the sequence sorted ascending by value,
whose cumulative weight is at least `rankOf p total` — the ceiling of
`p * total` clamped to `[1, total]`; and concretely,
`Summary.new [0..19] (twenty ones)` yields min 0, max 19, avg 19/2
(= 9.5), median 9, sum 190, count 20, quantile(0.95) = 18 (the source's
`test_dense_stats`). -/
theorem C6_weighted_nearest_rank :
    (∀ (values : List ℚ) (weights : List Nat) (p : ℚ),
        values.length = weights.length → values ≠ [] → 0 < weights.sum →
        ∃ i : Fin (sortPairs (values.zip weights)).length,
          quantileOf values weights p =
            ((sortPairs (values.zip weights)).get i).1 ∧
          rankOf p weights.sum ≤
            wsum ((sortPairs (values.zip weights)).take (i.1 + 1)) ∧
          ∀ j < i.1,
            wsum ((sortPairs (values.zip weights)).take (j + 1)) <
              rankOf p weights.sum) ∧
    Summary.new denseValues denseWeights .histogram =
      some { min := 0, max := 19, median := 9, avg := 19/2, sum := 190,
             count := 20, quantiles := [(19/20, 18)] } := by
  constructor
  · intro values weights p hlen hne hw
    have hws : wsum (sortPairs (values.zip weights)) = weights.sum :=
      (wsum_sortPairs _).trans (wsum_zip values weights hlen)
    have h1 : 1 ≤ rankOf p weights.sum := rankOf_pos p weights.sum
    have h2 : rankOf p weights.sum ≤ weights.sum :=
      rankOf_le p weights.sum (by omega)
    obtain ⟨i, hval, hcum, hmin⟩ := nearestRank_spec (rankOf p weights.sum)
      (sortPairs (values.zip weights)) 0 (by omega) (by omega)
    exact ⟨i, hval, by simpa using hcum, fun j hj => by simpa using hmin j hj⟩
  · decide

/-- C6 witness: the general characterization applied to the sparse-stats
samples `[1,2,3]` with weights `[3,3,2]` at the median level `p = 1/2`. -/
theorem C6_weighted_nearest_rank_witness :
    ∃ i : Fin (sortPairs (([1, 2, 3] : List ℚ).zip [3, 3, 2])).length,
      quantileOf [1, 2, 3] [3, 3, 2] (1/2) =
        ((sortPairs (([1, 2, 3] : List ℚ).zip [3, 3, 2])).get i).1 ∧
      rankOf (1/2) ([3, 3, 2] : List Nat).sum ≤
        wsum ((sortPairs (([1, 2, 3] : List ℚ).zip [3, 3, 2])).take
          (i.1 + 1)) ∧
      ∀ j < i.1,
        wsum ((sortPairs (([1, 2, 3] : List ℚ).zip [3, 3, 2])).take
          (j + 1)) < rankOf (1/2) ([3, 3, 2] : List Nat).sum :=
  C6_weighted_nearest_rank.1 [1, 2, 3] [3, 3, 2] (1/2)
    (by decide) (by decide) (by decide)

/-- C9 witness: reordering the entries of the `test_encode_tags` mapping
leaves the encoding unchanged. -/
theorem C9_encode_tags_sorted_complete_witness :
    encode_tags [("true_tag", "true"), ("normal_tag", "value"),
        ("empty_tag", "")] =
      encode_tags [("normal_tag", "value"), ("true_tag", "true"),
        ("empty_tag", "")] :=
  (C9_encode_tags_sorted_complete
      [("true_tag", "true"), ("normal_tag", "value"),
        ("empty_tag", "")]).2.2
    [("normal_tag", "value"), ("true_tag", "true"), ("empty_tag", "")]
    (by decide)

/-- Every wire number serializes: serde_json writes a numeral for a finite
`f64` and `null` for NaN or infinities; it never errors on a number. -/
theorem serializeJVal_num_isSome (x : F64) :
    (serializeJVal (JVal.num x)).isSome = true := by
  cases x <;> rfl

/-- An array whose elements all serialize serializes. -/
theorem serializeElems_isSome (l : List JVal)
    (h : ∀ x ∈ l, (serializeJVal x).isSome = true) :
    (serializeElems l).isSome = true := by
  induction l with
  | nil => rfl
  | cons e rest ih =>
    obtain ⟨s, hs⟩ := Option.isSome_iff_exists.mp
      (h e (List.mem_cons_self e rest))
    obtain ⟨r, hr⟩ := Option.isSome_iff_exists.mp
      (ih fun x hx => h x (List.mem_cons_of_mem e hx))
    simp [serializeElems, hs, hr]

/-- An object all of whose keys are strings and whose values serialize
serializes. -/
theorem serializeFields_isSome (l : List (JVal × JVal))
    (h : ∀ kv ∈ l, (∃ s, kv.1 = JVal.str s) ∧
      (serializeJVal kv.2).isSome = true) :
    (serializeFields l).isSome = true := by
  induction l with
  | nil => rfl
  | cons kv rest ih =>
    obtain ⟨k, v⟩ := kv
    obtain ⟨⟨ks, hk⟩, hv⟩ := h (k, v) (List.mem_cons_self (k, v) rest)
    obtain ⟨vs, hvs⟩ := Option.isSome_iff_exists.mp hv
    obtain ⟨r, hr⟩ := Option.isSome_iff_exists.mp
      (ih fun x hx => h x (List.mem_cons_of_mem (k, v) hx))
    simp only at hk
    subst hk
    simp [serializeFields, hvs, hr]

/-- A serialized point (a two-number array) always serializes, whatever
its `f64` value — NaN and infinities included. -/
theorem jsonOfPoint_isSome (p : Int × F64) :
    (serializeJVal (jsonOfPoint p)).isSome = true := by
  obtain ⟨t, x⟩ := p
  cases x <;> rfl

/-- A serialized metric always serializes: every key of the derived
encoding is a field-name string and every field value is unconditionally
serializable. -/
theorem jsonOfMetricW_isSome (m : DatadogMetricW) :
    (serializeJVal (jsonOfMetricW m)).isSome = true := by
  rw [jsonOfMetricW, serializeJVal, Option.isSome_map']
  apply serializeFields_isSome
  intro kv hkv
  simp only [List.mem_cons, List.not_mem_nil, or_false] at hkv
  rcases hkv with h | h | h | h | h <;> subst h <;>
    refine ⟨⟨_, rfl⟩, ?_⟩
  · rfl
  · cases m.type <;> rfl
  · cases m.interval <;> rfl
  · rw [serializeJVal, Option.isSome_map']
    apply serializeElems_isSome
    intro x hx
    simp only [List.mem_map] at hx
    obtain ⟨p, _, rfl⟩ := hx
    exact jsonOfPoint_isSome p
  · cases htags : m.tags with
    | none => rfl
    | some l =>
      rw [jsonOfTags, serializeJVal, Option.isSome_map']
      apply serializeElems_isSome
      intro x hx
      simp only [List.mem_map] at hx
      obtain ⟨s, _, rfl⟩ := hx
      rfl

/-- C10: serializing the assembled request body never fails — the
`unwrap` on `serde_json::to_vec` (line 143) cannot panic — for every
possible request, including records whose point values are NaN or
infinite: every field of `DatadogRequest` is unconditionally
serializable (non-finite floats serialize as `null`; the only run-time
serialization error, a non-string map key, cannot occur because every
key of the derived encoding is a field-name string). -/
theorem C10_serialize_request_total (r : DatadogRequestW) :
    (serializeJVal (jsonOfRequestW r)).isSome = true := by
  rw [jsonOfRequestW, serializeJVal, Option.isSome_map']
  apply serializeFields_isSome
  intro kv hkv
  simp only [List.mem_cons, List.not_mem_nil, or_false] at hkv
  subst hkv
  refine ⟨⟨_, rfl⟩, ?_⟩
  rw [serializeJVal, Option.isSome_map']
  apply serializeElems_isSome
  intro x hx
  simp only [List.mem_map] at hx
  obtain ⟨m, _, rfl⟩ := hx
  exact jsonOfMetricW_isSome m

end Datadog
